import Mathlib

/-!
Verification of the indicator-computation and ranking engine of the
ce-dascen-analysis repository.

The development shallowly embeds the core functions of
`src/modules/module1_step_indicators.py` (variable resolution and formula
evaluation), `src/modules/module2_experiment_aggregation.py` (experiment
aggregation, threshold filtering, normalization) and
`src/modules/module3_ranking.py` (total score and ranking) into Lean.

Modelling conventions:
* pandas float values are modelled as rationals (`ℚ`); `Series.round(n)`
  and Python `round(x, n)` are modelled by `roundTo n`, which uses
  round-half-to-even, matching numpy/Python rounding of exact ties;
* a DataFrame is a list of rows; a row is an association list from column
  name to value; column assignment `df[c] = ...` is `setCol`, which
  overwrites an existing column and otherwise appends it;
* Python exceptions are modelled with `Except String`; a `try/except`
  block that logs and substitutes a default becomes a `match` on the
  `Except` value.
-/

/-- Round-half-to-even to an integer, as numpy/Python `round` behaves on
exact ties (non-tie cases round to the nearest integer). -/
def roundHalfEven (q : ℚ) : ℤ :=
  let f : ℤ := ⌊q⌋
  let frac : ℚ := q - f
  if frac < 1/2 then f
  else if 1/2 < frac then f + 1
  else if f % 2 = 0 then f else f + 1

/-- `roundTo p q` rounds `q` to `p` decimal places (half-to-even). -/
def roundTo (p : ℕ) (q : ℚ) : ℚ :=
  (roundHalfEven (q * 10 ^ p) : ℚ) / 10 ^ p

/-- Rounding to two decimals, the precision used throughout modules 1 and 2. -/
def round2 (q : ℚ) : ℚ := roundTo 2 q

/-- Minimum of a list of rationals (`Series.min` on a nonempty column). -/
def listMin : List ℚ → ℚ
  | [] => 0
  | x :: xs => xs.foldl min x

/-- Maximum of a list of rationals (`Series.max` on a nonempty column). -/
def listMax : List ℚ → ℚ
  | [] => 0
  | x :: xs => xs.foldl max x

/-!
## Module 2 data model

`ExpRow` is one row of the `df_experiments` table: the experiment id plus
the columns appended by the pipeline (the DoE metadata columns play no
role in the verified functions and are not tracked). `Table` is a source
entity table (`df_process`, `df_product`, ...): its column-name set plus
rows carrying an experiment id and the per-column numeric values.
-/

/-- One row of the experiment-level DataFrame. -/
structure ExpRow where
  exp_id : Nat
  cols : List (String × ℚ)
deriving Repr, DecidableEq

/-- `df[c] = v` on one row: overwrite an existing column, else append. -/
def setCol (r : ExpRow) (c : String) (v : ℚ) : ExpRow :=
  if r.cols.any (fun p => p.1 == c) then
    { r with cols := r.cols.map (fun p => if p.1 == c then (c, v) else p) }
  else
    { r with cols := r.cols ++ [(c, v)] }

/-- Value of column `c` on row `r` (0 if the column is absent; the
pipeline only reads columns it has established to exist). -/
def colVal (r : ExpRow) (c : String) : ℚ :=
  match r.cols.find? (fun p => p.1 == c) with
  | some p => p.2
  | none => 0

/-- One row of a source entity table: experiment id plus column values. -/
structure SrcRow where
  exp_id : Nat
  get : String → ℚ

/-- A source entity table: its column names and its rows. -/
structure Table where
  cols : List String
  rows : List SrcRow

/-- An `IndicatorDefinition` as read from `config_indicators.json`
(the fields used by modules 2 and 3). -/
structure Indicator where
  indicator_id : String
  target_dataframe : String
  aggregation : String
  direction : String
  threshold : ℚ
  weight : ℚ
  category : String

/-- The slice of the `data` dictionary consumed by
`aggregate_to_experiment_level`: the DoE experiment ids, the named source
tables, and the indicator configuration list. -/
structure AggData where
  doe : List Nat
  tables : List (String × Table)
  indicators : List Indicator

/-- `data[name]` for a table key. -/
def lookupTable (ts : List (String × Table)) (n : String) : Option Table :=
  (ts.find? (fun p => p.1 == n)).map (fun p => p.2)

/-- Distinct keys of a keyed column, in first-appearance order. -/
def groupKeys (t : List (Nat × ℚ)) : List Nat :=
  (t.map Prod.fst).dedup

/-- `df.groupby('exp_id')[col].sum()` on the pairs (exp_id, value). -/
def groupSum (t : List (Nat × ℚ)) : List (Nat × ℚ) :=
  (groupKeys t).map (fun k => (k, ((t.filter (fun p => p.1 == k)).map Prod.snd).sum))

/-- `df.groupby('exp_id')[col].mean()` on the pairs (exp_id, value). -/
def groupMean (t : List (Nat × ℚ)) : List (Nat × ℚ) :=
  (groupKeys t).map (fun k =>
    let vs := (t.filter (fun p => p.1 == k)).map Prod.snd
    (k, vs.sum / vs.length))

/-- The aggregation dispatch of `aggregate_to_experiment_level`
(module2, lines 160-166): `sum` → groupby sum, `average`/`mean` →
groupby mean, anything else → `set_index('exp_id')[col]`, i.e. the
column taken directly with no reduction. -/
def aggregateColumn (method : String) (t : List (Nat × ℚ)) : List (Nat × ℚ) :=
  if method == "sum" then groupSum t
  else if method == "average" || method == "mean" then groupMean t
  else t

/-- The left merge of the aggregated series into `df_experiments`
(module2, lines 169-180), keyed on `exp_id` against the series index,
followed by `fillna(0)` on the merged column: a left row with no match
keeps one row with value 0; a left row with k matches yields k rows. -/
def mergeIndicator (rows : List ExpRow) (agg : List (Nat × ℚ)) (c : String) : List ExpRow :=
  rows.flatMap (fun r =>
    match agg.filter (fun p => p.1 == r.exp_id) with
    | [] => [setCol r c 0]
    | ms => ms.map (fun p => setCol r c p.2))

/-- Whether an indicator is successfully aggregated: its target table
exists in `data` and carries the indicator column (module2, lines
147-158; otherwise the indicator is skipped and recorded as missing). -/
def indicatorProcessed (tables : List (String × Table)) (i : Indicator) : Bool :=
  match lookupTable tables i.target_dataframe with
  | none => false
  | some t => t.cols.contains i.indicator_id

/-- The body of the per-indicator aggregation loop (module2, lines
140-187): skip if the target table or the indicator column is missing,
otherwise aggregate the column and left-merge it. -/
def aggStep (tables : List (String × Table)) (rows : List ExpRow) (i : Indicator) : List ExpRow :=
  match lookupTable tables i.target_dataframe with
  | none => rows
  | some t =>
    if t.cols.contains i.indicator_id then
      mergeIndicator rows
        (aggregateColumn i.aggregation (t.rows.map (fun sr => (sr.exp_id, sr.get i.indicator_id))))
        i.indicator_id
    else rows

/-- `missing_indicators` accumulated by the loop. -/
def missingIds (d : AggData) : List String :=
  (d.indicators.filter (fun i => !indicatorProcessed d.tables i)).map (fun i => i.indicator_id)

/-- `indicator_cols` (module2, line 193): ids of indicators not recorded
as missing. -/
def indicatorCols (d : AggData) : List String :=
  (d.indicators.filter (fun i => !(missingIds d).contains i.indicator_id)).map
    (fun i => i.indicator_id)

/-- `df[indicator_cols] = df[indicator_cols].round(2)` (module2, line 195). -/
def roundCols (cs : List String) (rows : List ExpRow) : List ExpRow :=
  rows.map (fun r =>
    { r with cols := r.cols.map (fun p => if cs.contains p.1 then (p.1, round2 p.2) else p) })

/-- `aggregate_to_experiment_level` (module2, lines 90-199). `none`
models the raised `ValueError`/`RuntimeError` of the validation block
(empty DoE, missing or empty `df_process`); `some []` models the early
returns of an empty DataFrame. The skeleton is the DoE restricted to the
experiment ids occurring in `df_process`; each configured indicator is
aggregated and left-merged, merge gaps are filled with 0, and the
successfully aggregated columns are rounded to two decimals. -/
def aggregate_to_experiment_level (d : AggData) : Option (List ExpRow) :=
  if d.doe.isEmpty then none
  else
    match lookupTable d.tables "df_process" with
    | none => none
    | some dfp =>
      if dfp.rows.isEmpty then none
      else
        let available := dfp.rows.map (fun r => r.exp_id)
        if available.isEmpty then some []
        else
          let skeleton := (d.doe.filter (fun e => available.contains e)).map
            (fun e => ExpRow.mk e [])
          if skeleton.isEmpty then some []
          else some (roundCols (indicatorCols d) (d.indicators.foldl (aggStep d.tables) skeleton))

/-!
## Module 2: threshold filtering and normalization

`DF` pairs the row list with the DataFrame's numeric column-name list;
the per-indicator skip checks of `apply_threshold_filters` and
`normalize_indicators` test membership in the column set. The boolean
`_in_threshold` columns and the feasibility summary columns are carried
on a dedicated row structure `ThreshRow`.
-/

/-- A numeric DataFrame: its column names and its rows. -/
structure DF where
  numCols : List String
  rows : List ExpRow

/-- The threshold comparison of `apply_threshold_filters` (module2,
lines 248-256): `minimize` → value ≤ threshold, `maximize` → value ≥
threshold, any other direction string → the minimize comparison (with a
logged warning). -/
def checkIndicator (direction : String) (threshold v : ℚ) : Bool :=
  if direction == "minimize" then decide (v ≤ threshold)
  else if direction == "maximize" then decide (threshold ≤ v)
  else decide (v ≤ threshold)

/-- The indicators whose column is present in the DataFrame, i.e. those
whose threshold check is not skipped (module2, lines 240-243). -/
def checkedInds (df : DF) (inds : List Indicator) : List Indicator :=
  inds.filter (fun i => df.numCols.contains i.indicator_id)

/-- One row of `df_experiments` after threshold filtering: the original
numeric row, the boolean `{id}_in_threshold` columns, and the summary
columns `threshold_violations` and `is_feasible`. -/
structure ThreshRow where
  base : ExpRow
  flags : List (String × Bool)
  violations : Nat
  feasible : Bool
deriving Repr, DecidableEq

/-- `apply_threshold_filters` (module2, lines 202-284): one
`{id}_in_threshold` flag per successfully checked indicator;
`threshold_violations` counts the false flags and `is_feasible` is their
absence. When no indicator at all could be checked, the code's explicit
fallback sets `threshold_violations = 0` and `is_feasible = True` for
every experiment. -/
def apply_threshold_filters (df : DF) (inds : List Indicator) : List ThreshRow :=
  let checked := checkedInds df inds
  if checked.isEmpty then
    df.rows.map (fun r => ThreshRow.mk r [] 0 true)
  else
    df.rows.map (fun r =>
      let fl := checked.map (fun i =>
        (i.indicator_id ++ "_in_threshold",
          checkIndicator i.direction i.threshold (colVal r i.indicator_id)))
      let v := (fl.filter (fun p => !p.2)).length
      ThreshRow.mk r fl v (v == 0))

/-- The indicator column of `df_experiments` as a list, row order
preserved (`df_experiments[ind_id]`). -/
def valsOf (rows : List ExpRow) (c : String) : List ℚ :=
  rows.map (fun r => colVal r c)

/-- The per-indicator pass of `normalize_indicators` (module2, lines
317-376), over ALL experiment rows: bounds from all rows, worst bound
anchored at the threshold, degenerate bounds (differing by less than
1e-10) force the normalized column to 1.0, otherwise the
direction-dependent min-max formula rounded to two decimals. An unknown
direction takes the maximize anchoring (the `else` of lines 335-340) but
the minimize formula (the `else` of lines 364-368), as in the code. In
`ℚ` the ±infinity sweep of lines 374-376 is unreachable because the
denominator is nonzero whenever this branch runs. -/
def normStep (rows : List ExpRow) (i : Indicator) : List ExpRow :=
  let vals := valsOf rows i.indicator_id
  let best := if i.direction == "maximize" then listMax vals else listMin vals
  let worstRaw := if i.direction == "maximize" then listMin vals else listMax vals
  let worst := if i.direction == "minimize" then min worstRaw i.threshold
    else max worstRaw i.threshold
  if |best - worst| < 1/10000000000 then
    rows.map (fun r => setCol r (i.indicator_id ++ "_normalized") 1)
  else
    rows.map (fun r =>
      let v := colVal r i.indicator_id
      let n :=
        if i.direction == "minimize" then (worst - v) / (worst - best)
        else if i.direction == "maximize" then (v - worst) / (best - worst)
        else (worst - v) / (worst - best)
      setCol r (i.indicator_id ++ "_normalized") (round2 n))

/-- `normalize_indicators` (module2, lines 287-388): an empty DataFrame
is returned unchanged; otherwise each indicator present in the column
set is normalized by `normStep` and its `_normalized` column is added to
the column set. -/
def normalize_indicators (df : DF) (inds : List Indicator) : DF :=
  if df.rows.isEmpty then df
  else
    inds.foldl (fun d i =>
      if d.numCols.contains i.indicator_id then
        DF.mk (d.numCols ++ [i.indicator_id ++ "_normalized"]) (normStep d.rows i)
      else d) df

/-!
## Module 3: total score and ranking
-/

/-- The `{id}_weighted` column names of a list of indicators that are
present in the given column set (module3: the per-category and overall
`weighted_col in df_experiments.columns` scans). -/
def scoreCols (numCols : List String) (inds : List Indicator) : List String :=
  (inds.map (fun i => i.indicator_id ++ "_weighted")).filter (fun w => numCols.contains w)

/-- Append a score column: the rounded row-wise sum of the given columns,
or the constant 0 when no contributing column exists (module3, the
`if cols: ... else: 0` pattern of `calculate_total_score`). -/
def addScoreCol (df : DF) (name : String) (cs : List String) (prec : ℕ) : DF :=
  if cs.isEmpty then
    DF.mk (df.numCols ++ [name]) (df.rows.map (fun r => setCol r name 0))
  else
    DF.mk (df.numCols ++ [name])
      (df.rows.map (fun r => setCol r name (roundTo prec ((cs.map (fun c => colVal r c)).sum))))

/-- `calculate_total_score` (module3, lines 124-233): `economic_score`
from the economic indicators' available weighted columns, then
`environmental_score` from the environmental ones, then
`total_weighted_score` directly from ALL available weighted columns
(each sum rounded to `score_precision`, each falling back to 0 when its
column list is empty). The three column scans run sequentially on the
current column set, as in the code. -/
def calculate_total_score (df : DF) (inds : List Indicator) (prec : ℕ) : DF :=
  let d1 := addScoreCol df "economic_score"
    (scoreCols df.numCols (inds.filter (fun i => i.category == "economic"))) prec
  let d2 := addScoreCol d1 "environmental_score"
    (scoreCols d1.numCols (inds.filter (fun i => i.category == "environmental"))) prec
  addScoreCol d2 "total_weighted_score" (scoreCols d2.numCols inds) prec

/-- The two columns of `df_experiments` read by `rank_experiments`. -/
structure ScoreRow where
  exp_id : Nat
  total : ℚ
  feasible : Bool
deriving Repr, DecidableEq

/-- A row after ranking: `rank_all` over every experiment and the
nullable feasible-only `rank`. -/
structure RankedRow where
  exp_id : Nat
  total : ℚ
  feasible : Bool
  rank_all : Nat
  rank : Option Nat
deriving Repr, DecidableEq

/-- `rank_experiments` (module3, lines 236-315). Both rankings use
pandas `Series.rank(ascending=False, method='min')`, whose value on a row
is 1 plus the number of rows with strictly greater score (tied scores
share the minimum position). `rank_all` ranks every row; `rank` applies
the same rule restricted to the feasible rows and is `none` (pandas `NA`
under the nullable `Int64` dtype) on infeasible rows. -/
def rank_experiments (rows : List ScoreRow) : List RankedRow :=
  let feas := rows.filter (fun s => s.feasible)
  rows.map (fun r =>
    RankedRow.mk r.exp_id r.total r.feasible
      ((rows.filter (fun s => r.total < s.total)).length + 1)
      (if r.feasible then some ((feas.filter (fun s => r.total < s.total)).length + 1)
       else none))

/-!
## Module 1 data model

Rows of the entity tables hold heterogeneous values (step names are
strings, qualities are numbers), and the attribute tables are parsed
JSON, so values are modelled by the JSON-like type `JVal` (JSON `null`
and booleans do not occur in the configuration data and are not
modelled). Python comparison `==` is `JVal.beq`; arithmetic on a
non-numeric value raises, which `asNum` models.
-/

/-- A JSON-like value: row cell or attribute-table node. -/
inductive JVal where
  | num (q : ℚ)
  | str (s : String)
  | arr (l : List JVal)
  | obj (l : List (String × JVal))
deriving Repr

mutual

/-- Python `==` on values (structural equality). -/
def JVal.beq : JVal → JVal → Bool
  | .num a, .num b => a == b
  | .str a, .str b => a == b
  | .arr a, .arr b => JVal.beqList a b
  | .obj a, .obj b => JVal.beqObj a b
  | _, _ => false

/-- Elementwise equality of value lists. -/
def JVal.beqList : List JVal → List JVal → Bool
  | [], [] => true
  | x :: xs, y :: ys => JVal.beq x y && JVal.beqList xs ys
  | _, _ => false

/-- Elementwise equality of key-value lists. -/
def JVal.beqObj : List (String × JVal) → List (String × JVal) → Bool
  | [], [] => true
  | (k1, v1) :: xs, (k2, v2) :: ys => k1 == k2 && JVal.beq v1 v2 && JVal.beqObj xs ys
  | _, _ => false

end

instance : BEq JVal := ⟨JVal.beq⟩

/-- Using a value as a number: any non-numeric operand of an arithmetic
or order operation raises `TypeError` in Python. -/
def asNum : JVal → Except String ℚ
  | .num q => .ok q
  | _ => .error "TypeError"

/-- `d[k]` on a parsed-JSON node: `KeyError` when the key is missing,
`TypeError` when the node is not a dict. -/
def jGet (v : JVal) (k : String) : Except String JVal :=
  match v with
  | .obj l =>
    match l.find? (fun p => p.1 == k) with
    | some p => .ok p.2
    | none => .error "KeyError"
  | _ => .error "TypeError"

/-- `d.get(k, dflt)`: `AttributeError` when the node is not a dict. -/
def jGetD (v : JVal) (k : String) (dflt : JVal) : Except String JVal :=
  match v with
  | .obj l =>
    match l.find? (fun p => p.1 == k) with
    | some p => .ok p.2
    | none => .ok dflt
  | _ => .error "AttributeError"

/-- Walking a dot-separated value path with a per-segment default:
`for part in path: value = value.get(part, dflt)`. -/
def walkPathD (dflt : JVal) (v : JVal) (parts : List String) : Except String JVal :=
  parts.foldlM (fun acc p => jGetD acc p dflt) v

/-- A DataFrame row of module 1: column name to cell value. -/
def M1Row := List (String × JVal)

/-- `col in row` followed by `row[col]`: the code raises `KeyError`
itself when the column is absent. -/
def rowGet (row : M1Row) (c : String) : Except String JVal :=
  match row.find? (fun p => p.1 == c) with
  | some p => .ok p.2
  | none => .error "KeyError"

/-- The attribute tables of `data['attributes']`, each already unwrapped
at its `attr_structure` structure key (that indirection only selects the
top-level JSON key and carries no logic). -/
structure M1Data where
  attr_process : List JVal
  attr_systems : List JVal
  attr_product : List JVal

/-- The component scan shared by the product-table branches
(module1: `for component in attr_table: if component[COMPONENT_NAME] ==
step_name`): first matching component, `KeyError`/`TypeError` if an
entry scanned on the way lacks the `component_name` key. -/
def findComponent : List JVal → JVal → Except String (Option JVal)
  | [], _ => .ok none
  | c :: rest, step => do
    let n ← jGet c "component_name"
    if n == step then pure (some c) else findComponent rest step

/-- `all(entry.get(k) == v for k, v in lookup_values.items())`: a missing
key compares unequal (`None == v` is false for the row values that
occur); a non-dict entry raises. -/
def entryMatches (e : JVal) (lv : List (String × JVal)) : Except String Bool :=
  match e with
  | .obj l =>
    .ok (lv.all (fun p =>
      match l.find? (fun q => q.1 == p.1) with
      | some q => q.2 == p.2
      | none => false))
  | _ => .error "AttributeError"

/-- The key-matched scan of the process/systems attribute tables
(module1, lines 287-296): walk the value path of the first entry whose
keys all match, default 0 per missing path segment, 0 when no entry
matches. -/
def entryLookup : List JVal → List (String × JVal) → List String → Except String JVal
  | [], _, _ => .ok (.num 0)
  | e :: rest, lv, parts => do
    let m ← entryMatches e lv
    if m then
      walkPathD (.num 0) e parts
    else entryLookup rest lv parts

/-- The inclusive quality-bounds test shared by the `quality_range` and
`quality_threshold` branches (module1, lines 336-340 and 381-384):
`q_min = e.get('quality_min', 0)`, `q_max = e.get('quality_max', 1)`,
then `q_min <= quality <= q_max` — the second comparison is skipped by
Python's chained-comparison short-circuit when the first is false. -/
def qualContains (e : JVal) (quality : JVal) : Except String Bool := do
  let qminJ ← jGetD e "quality_min" (.num 0)
  let qmaxJ ← jGetD e "quality_max" (.num 1)
  let qmin ← asNum qminJ
  let qv ← asNum quality
  if qmin ≤ qv then do
    let qmax ← asNum qmaxJ
    pure (decide (qv ≤ qmax))
  else pure false

/-- The range-array scan of the `quality_range` branch (module1, lines
335-341): value of `value_key` (default 0) of the first range entry
containing the quality; 0 when none matches. -/
def findQualRange : List JVal → JVal → String → Except String JVal
  | [], _, _ => .ok (.num 0)
  | e :: rest, q, vk => do
    let c ← qualContains e q
    if c then jGetD e vk (.num 0) else findQualRange rest q vk

/-- The option-map scan of the `quality_threshold` branch (module1,
lines 380-385): identical to `findQualRange` but over the named options
of a dict, in table order. -/
def findQualThreshold : List (String × JVal) → JVal → String → Except String JVal
  | [], _, _ => .ok (.num 0)
  | (_, d) :: rest, q, vk => do
    let c ← qualContains d q
    if c then jGetD d vk (.num 0) else findQualThreshold rest q vk

/-- A `VariableSpec`, the tagged form of the variable-source dictionary
(a config dict missing its `source`-specific keys raises `KeyError` at
the same points the typed fields make unrepresentable; `unknown` keeps
the `ValueError` raised for an unrecognized source string). -/
inductive VarConfig where
  | dataframe (column : String)
  | attribute_file (file : String) (lookup_columns : List String) (value_path : String)
  | quality_range (file : String) (lookup_column quality_column : String)
      (value_path : String) (value_key : String)
  | quality_threshold (file : String) (lookup_column quality_column : String)
      (value_path : String) (value_key : String)
  | unknown (source : String)

/-- `get_variable_value` (module1, lines 199-393). `dataframe` reads the
row column; `attribute_file` strips the table name from the file name,
reads every lookup column from the row, then dispatches: the product
table goes through the component scan and the dot-path walk (default 0),
the process/systems tables through the key-matched scan, an unknown
table name returns 0. `quality_range` walks the dot path with default
`[]` and scans a range array; `quality_threshold` reads the single
`value_path` key with default `{}` and scans the option map (a non-dict
value raises at `.items()`). All misses return 0. -/
def get_variable_value (row : M1Row) (cfg : VarConfig) (d : M1Data) : Except String JVal :=
  match cfg with
  | .dataframe col => rowGet row col
  | .attribute_file file lookup_columns value_path =>
    let table_name := (file.replace "attributes_" "").replace ".json" ""
    do
      let lv ← lookup_columns.mapM (fun c => do
        let v ← rowGet row c
        pure (c, v))
      if table_name == "process" then
        entryLookup d.attr_process lv (value_path.splitOn ".")
      else if table_name == "systems" then
        entryLookup d.attr_systems lv (value_path.splitOn ".")
      else if table_name == "product" then
        match lookup_columns with
        | [] => .error "IndexError"
        | c0 :: _ => do
          let step ← rowGet row c0
          match ← findComponent d.attr_product step with
          | none => .ok (.num 0)
          | some comp => walkPathD (.num 0) comp (value_path.splitOn ".")
      else .ok (.num 0)
  | .quality_range _ lookup_column quality_column value_path value_key => do
    let step ← rowGet row lookup_column
    let quality ← rowGet row quality_column
    match ← findComponent d.attr_product step with
    | none => .ok (.num 0)
    | some comp => do
      let attrData ← walkPathD (.arr []) comp (value_path.splitOn ".")
      match attrData with
      | .arr entries => findQualRange entries quality value_key
      | _ => .ok (.num 0)
  | .quality_threshold _ lookup_column quality_column value_path value_key => do
    let step ← rowGet row lookup_column
    let quality ← rowGet row quality_column
    match ← findComponent d.attr_product step with
    | none => .ok (.num 0)
    | some comp => do
      let eol ← jGetD comp value_path (.obj [])
      match eol with
      | .obj options => findQualThreshold options quality value_key
      | _ => .error "AttributeError"
  | .unknown _ => .error "ValueError"

/-!
## Module 1: formula evaluation
-/

/-- A formula: the arithmetic expression grammar evaluated by the
sandboxed `eval(formula, {"__builtins__": {}}, var_values)` — numeric
literals, variable names, `+ - * /` and parenthesized grouping. -/
inductive FExpr where
  | lit (q : ℚ)
  | var (name : String)
  | add (a b : FExpr)
  | sub (a b : FExpr)
  | mul (a b : FExpr)
  | div (a b : FExpr)

/-- Evaluation of a formula in a variable scope. A name outside the
scope raises `NameError`; a zero divisor raises `ZeroDivisionError`; an
operation on a non-numeric variable value fails where Python's
evaluation of the same formula either raises `TypeError` or produces a
non-numeric result that the subsequent `round(result, 2)` rejects —
either way the enclosing handler turns it into 0. -/
def evalExpr (env : List (String × JVal)) : FExpr → Except String ℚ
  | .lit q => .ok q
  | .var n =>
    match env.find? (fun p => p.1 == n) with
    | some p => asNum p.2
    | none => .error "NameError"
  | .add a b => do
    let x ← evalExpr env a
    let y ← evalExpr env b
    pure (x + y)
  | .sub a b => do
    let x ← evalExpr env a
    let y ← evalExpr env b
    pure (x - y)
  | .mul a b => do
    let x ← evalExpr env a
    let y ← evalExpr env b
    pure (x * y)
  | .div a b => do
    let x ← evalExpr env a
    let y ← evalExpr env b
    if y = 0 then .error "ZeroDivisionError" else pure (x / y)

/-- The variable-dictionary loop of `evaluate_formula_for_row`
(module1, lines 174-182): every variable is resolved through
`get_variable_value`; any exception is caught and the variable defaults
to 0 without aborting the loop. -/
def buildEnv (row : M1Row) (vars : List (String × VarConfig)) (d : M1Data) :
    List (String × JVal) :=
  vars.map (fun p =>
    (p.1, match get_variable_value row p.2 d with
      | .ok v => v
      | .error _ => JVal.num 0))

/-- `evaluate_formula_for_row` (module1, lines 153-196): build the
variable dictionary, evaluate the formula, round a successful result to
two decimals; any evaluation error is caught and yields 0. The function
returns a plain `ℚ`: no exception escapes it. -/
def evaluate_formula_for_row (row : M1Row) (formula : FExpr)
    (vars : List (String × VarConfig)) (d : M1Data) : ℚ :=
  match evalExpr (buildEnv row vars d) formula with
  | .ok v => round2 v
  | .error _ => 0

/-- The spec's concrete minimize scenario: three experiments with raw
values 125, 150, 110 and threshold 1000. -/
def c4Rows : List ExpRow :=
  [ExpRow.mk 1 [("IND01", 125)], ExpRow.mk 2 [("IND01", 150)], ExpRow.mk 3 [("IND01", 110)]]

/-- The minimize indicator of that scenario. -/
def c4Ind : Indicator :=
  Indicator.mk "IND01" "df_process" "sum" "minimize" 1000 1 "economic"

/-- Concrete input for C1: experiment 2 appears in the design table and
in `df_product` but not in `df_process`. -/
def c1Data : AggData :=
  AggData.mk [1, 2]
    [("df_process", Table.mk ["IND01"] [SrcRow.mk 1 (fun _ => 5)]),
     ("df_product", Table.mk ["IND02"] [SrcRow.mk 2 (fun _ => 7)])]
    [Indicator.mk "IND01" "df_process" "none" "minimize" 10 1 "economic",
     Indicator.mk "IND02" "df_product" "none" "minimize" 10 1 "environmental"]

/-!
## Claims
-/

theorem roundHalfEven_intCast (n : ℤ) : roundHalfEven (n : ℚ) = n := by
  unfold roundHalfEven
  simp

theorem roundTo_one (p : ℕ) : roundTo p 1 = 1 := by
  unfold roundTo
  rw [show ((1 : ℚ) * 10 ^ p) = ((10 ^ p : ℤ) : ℚ) by push_cast; ring]
  rw [roundHalfEven_intCast]
  rw [div_eq_one_iff_eq (by positivity)]
  push_cast
  ring

theorem roundTo_zero (p : ℕ) : roundTo p 0 = 0 := by
  unfold roundTo
  rw [show ((0 : ℚ) * 10 ^ p) = ((0 : ℤ) : ℚ) by push_cast; ring]
  rw [roundHalfEven_intCast]
  simp

theorem round2_one : round2 1 = 1 := roundTo_one 2

theorem round2_zero : round2 0 = 0 := roundTo_zero 2

theorem foldl_min_const (c : ℚ) : ∀ (l : List ℚ), (∀ x ∈ l, x = c) → l.foldl min c = c := by
  intro l
  induction l with
  | nil => intro _; rfl
  | cons y ys ih =>
    intro h
    have hy : y = c := h y (by simp)
    simp only [List.foldl_cons, hy, min_self]
    exact ih (fun x hx => h x (by simp [hx]))

theorem foldl_max_const (c : ℚ) : ∀ (l : List ℚ), (∀ x ∈ l, x = c) → l.foldl max c = c := by
  intro l
  induction l with
  | nil => intro _; rfl
  | cons y ys ih =>
    intro h
    have hy : y = c := h y (by simp)
    simp only [List.foldl_cons, hy, max_self]
    exact ih (fun x hx => h x (by simp [hx]))

theorem listMin_const (c : ℚ) (l : List ℚ) (h : ∀ x ∈ l, x = c) (hne : l ≠ []) :
    listMin l = c := by
  match l, hne with
  | x :: xs, _ =>
    have hx : x = c := h x (by simp)
    simp only [listMin, hx]
    exact foldl_min_const c xs (fun y hy => h y (by simp [hy]))

theorem listMax_const (c : ℚ) (l : List ℚ) (h : ∀ x ∈ l, x = c) (hne : l ≠ []) :
    listMax l = c := by
  match l, hne with
  | x :: xs, _ =>
    have hx : x = c := h x (by simp)
    simp only [listMax, hx]
    exact foldl_max_const c xs (fun y hy => h y (by simp [hy]))


/-- C2: for every indicator and experiment row, the
`{indicator_id}_in_threshold` flag produced by `apply_threshold_filters`
equals `aggregated value ≤ threshold` when the direction is `minimize`,
`aggregated value ≥ threshold` when it is `maximize`, and falls back to
the minimize comparison for any other direction string. -/
theorem C2_threshold_direction (df : DF) (inds : List Indicator) (i : Indicator)
    (hi : i ∈ inds) (hc : df.numCols.contains i.indicator_id = true)
    (r : ExpRow) (hr : r ∈ df.rows) :
    ∃ tr ∈ apply_threshold_filters df inds,
      tr.base = r ∧
      (i.indicator_id ++ "_in_threshold",
        if i.direction = "minimize" then decide (colVal r i.indicator_id ≤ i.threshold)
        else if i.direction = "maximize" then decide (i.threshold ≤ colVal r i.indicator_id)
        else decide (colVal r i.indicator_id ≤ i.threshold)) ∈ tr.flags := by
  have hmem : i ∈ checkedInds df inds := by
    simp only [checkedInds, List.mem_filter]
    exact ⟨hi, hc⟩
  have hne : (checkedInds df inds).isEmpty = false := by
    cases h : checkedInds df inds with
    | nil => rw [h] at hmem; exact absurd hmem (List.not_mem_nil i)
    | cons a l => simp [h]
  refine ⟨?_, ?_, ?_, ?_⟩
  · exact ThreshRow.mk r
      ((checkedInds df inds).map (fun j =>
        (j.indicator_id ++ "_in_threshold",
          checkIndicator j.direction j.threshold (colVal r j.indicator_id))))
      ((((checkedInds df inds).map (fun j =>
        (j.indicator_id ++ "_in_threshold",
          checkIndicator j.direction j.threshold (colVal r j.indicator_id)))).filter
            (fun p => !p.2)).length)
      (((((checkedInds df inds).map (fun j =>
        (j.indicator_id ++ "_in_threshold",
          checkIndicator j.direction j.threshold (colVal r j.indicator_id)))).filter
            (fun p => !p.2)).length) == 0)
  · simp only [apply_threshold_filters, hne, Bool.false_eq_true, if_false, List.mem_map]
    exact ⟨r, hr, rfl⟩
  · rfl
  · have : (i.indicator_id ++ "_in_threshold",
        checkIndicator i.direction i.threshold (colVal r i.indicator_id)) ∈
        (checkedInds df inds).map (fun j =>
          (j.indicator_id ++ "_in_threshold",
            checkIndicator j.direction j.threshold (colVal r j.indicator_id))) :=
      List.mem_map_of_mem _ hmem
    have hck : checkIndicator i.direction i.threshold (colVal r i.indicator_id) =
        if i.direction = "minimize" then decide (colVal r i.indicator_id ≤ i.threshold)
        else if i.direction = "maximize" then decide (i.threshold ≤ colVal r i.indicator_id)
        else decide (colVal r i.indicator_id ≤ i.threshold) := by
      by_cases h1 : i.direction = "minimize" <;> by_cases h2 : i.direction = "maximize" <;>
        simp [checkIndicator, h1, h2]
    rw [hck] at this
    exact this

/-- Witness for C2 at a concrete input: one row with IND01 = 5, one
minimize indicator with threshold 10. -/
theorem C2_threshold_direction_witness :
    ∃ tr ∈ apply_threshold_filters (DF.mk ["IND01"] [ExpRow.mk 1 [("IND01", 5)]])
      [Indicator.mk "IND01" "df_process" "sum" "minimize" 10 1 "economic"],
      tr.base = ExpRow.mk 1 [("IND01", 5)] ∧
      ("IND01" ++ "_in_threshold",
        if ("minimize" : String) = "minimize" then
          decide (colVal (ExpRow.mk 1 [("IND01", 5)]) "IND01" ≤ (10 : ℚ))
        else if ("minimize" : String) = "maximize" then
          decide ((10 : ℚ) ≤ colVal (ExpRow.mk 1 [("IND01", 5)]) "IND01")
        else decide (colVal (ExpRow.mk 1 [("IND01", 5)]) "IND01" ≤ (10 : ℚ))) ∈ tr.flags :=
  C2_threshold_direction
    (DF.mk ["IND01"] [ExpRow.mk 1 [("IND01", 5)]])
    [Indicator.mk "IND01" "df_process" "sum" "minimize" 10 1 "economic"]
    (Indicator.mk "IND01" "df_process" "sum" "minimize" 10 1 "economic")
    (by simp) (by rfl) (ExpRow.mk 1 [("IND01", 5)]) (by simp)

/-- C3: after threshold filtering, `threshold_violations` counts the
false `in_threshold` flags over the successfully checked indicators,
`is_feasible` holds exactly when that count is 0, and when no indicator
at all was checked every row gets violation count 0 and is feasible
(fail-open default). -/
theorem C3_violation_count (df : DF) (inds : List Indicator) (tr : ThreshRow)
    (htr : tr ∈ apply_threshold_filters df inds) :
    tr.violations = (tr.flags.filter (fun p => !p.2)).length ∧
    (tr.feasible = true ↔ tr.violations = 0) ∧
    (checkedInds df inds = [] → tr.violations = 0 ∧ tr.feasible = true) := by
  by_cases hc : (checkedInds df inds).isEmpty = true
  · simp only [apply_threshold_filters, hc, if_true, List.mem_map] at htr
    obtain ⟨r, _, hr⟩ := htr
    subst hr
    simp
  · have hc' : (checkedInds df inds).isEmpty = false := by
      cases h : (checkedInds df inds).isEmpty
      · rfl
      · exact absurd h hc
    simp only [apply_threshold_filters, hc', Bool.false_eq_true, if_false,
      List.mem_map] at htr
    obtain ⟨r, _, hr⟩ := htr
    subst hr
    refine ⟨rfl, ?_, ?_⟩
    · simp
    · intro h
      rw [h] at hc'
      simp at hc'

/-- Witness for C3 at a concrete input: one checked indicator whose
threshold is violated, giving one false flag, violation count 1 and an
infeasible row. -/
theorem C3_violation_count_witness :
    (ThreshRow.mk (ExpRow.mk 1 [("IND01", 50)])
      [("IND01_in_threshold", false)] 1 false).violations =
      ((ThreshRow.mk (ExpRow.mk 1 [("IND01", 50)])
        [("IND01_in_threshold", false)] 1 false).flags.filter
          (fun p => !p.2)).length ∧
    ((ThreshRow.mk (ExpRow.mk 1 [("IND01", 50)])
      [("IND01_in_threshold", false)] 1 false).feasible = true ↔
      (ThreshRow.mk (ExpRow.mk 1 [("IND01", 50)])
        [("IND01_in_threshold", false)] 1 false).violations = 0) := by
  have h := C3_violation_count (DF.mk ["IND01"] [ExpRow.mk 1 [("IND01", 50)]])
    [Indicator.mk "IND01" "df_process" "sum" "minimize" 10 1 "economic"]
    (ThreshRow.mk (ExpRow.mk 1 [("IND01", 50)]) [("IND01_in_threshold", false)] 1 false)
    (by decide)
  exact ⟨h.1, h.2.1⟩

/-- C7: formula evaluation is total. A variable whose resolution raises
is bound to 0 without aborting; one that resolves is bound to its value;
a successful evaluation of the expression returns its value rounded to
two decimals; any evaluation error (division by zero, unresolvable name,
non-numeric operand) yields 0. `evaluate_formula_for_row` returns a
plain `ℚ`, so no exception propagates out of it. -/
theorem C7_evaluator_total (row : M1Row) (f : FExpr)
    (vars : List (String × VarConfig)) (d : M1Data) :
    (∀ v, evalExpr (buildEnv row vars d) f = .ok v →
      evaluate_formula_for_row row f vars d = round2 v) ∧
    (∀ e, evalExpr (buildEnv row vars d) f = .error e →
      evaluate_formula_for_row row f vars d = 0) ∧
    (∀ n cfg, (n, cfg) ∈ vars → ∀ e, get_variable_value row cfg d = .error e →
      (n, JVal.num 0) ∈ buildEnv row vars d) ∧
    (∀ n cfg v, (n, cfg) ∈ vars → get_variable_value row cfg d = .ok v →
      (n, v) ∈ buildEnv row vars d) := by
  refine ⟨?_, ?_, ?_, ?_⟩
  · intro v hv
    simp [evaluate_formula_for_row, hv]
  · intro e he
    simp [evaluate_formula_for_row, he]
  · intro n cfg hmem e herr
    have h : ((fun p : String × VarConfig =>
        (p.1, match get_variable_value row p.2 d with
          | .ok v => v
          | .error _ => JVal.num 0)) (n, cfg)) ∈ buildEnv row vars d :=
      List.mem_map_of_mem _ hmem
    simp only [herr] at h
    exact h
  · intro n cfg v hmem hok
    have h : ((fun p : String × VarConfig =>
        (p.1, match get_variable_value row p.2 d with
          | .ok v => v
          | .error _ => JVal.num 0)) (n, cfg)) ∈ buildEnv row vars d :=
      List.mem_map_of_mem _ hmem
    simp only [hok] at h
    exact h

/-- Witness for C7 at a concrete input: the single variable `x` has an
unrecognized source (resolution raises `ValueError`) and so defaults to
0, making the formula `1 / x` raise `ZeroDivisionError`, which yields 0. -/
theorem C7_evaluator_total_witness :
    evaluate_formula_for_row [] (FExpr.div (FExpr.lit 1) (FExpr.var "x"))
      [("x", VarConfig.unknown "bogus")] (M1Data.mk [] [] []) = 0 ∧
    ("x", JVal.num 0) ∈ buildEnv [] [("x", VarConfig.unknown "bogus")] (M1Data.mk [] [] []) :=
  ⟨(C7_evaluator_total [] (FExpr.div (FExpr.lit 1) (FExpr.var "x"))
      [("x", VarConfig.unknown "bogus")] (M1Data.mk [] [] [])).2.1 "ZeroDivisionError" rfl,
   (C7_evaluator_total [] (FExpr.div (FExpr.lit 1) (FExpr.var "x"))
      [("x", VarConfig.unknown "bogus")] (M1Data.mk [] [] [])).2.2.1 "x"
      (VarConfig.unknown "bogus") (by simp) "ValueError" rfl⟩

/-- C10: in both quality_range and quality_threshold resolution, an
entry omitting `quality_min` is treated as bound 0 and one omitting
`quality_max` as bound 1; the containment test is inclusive at both ends
(`q_min ≤ quality ≤ q_max`); and the first entry in table order whose
bounds contain the quality value supplies the result (its `value_key`
entry, default 0). -/
theorem C10_quality_bounds :
    (∀ (l : List (String × JVal)) (q : ℚ),
      l.find? (fun p => p.1 == "quality_min") = none →
      l.find? (fun p => p.1 == "quality_max") = none →
      qualContains (.obj l) (.num q) = .ok (decide (0 ≤ q ∧ q ≤ 1))) ∧
    (∀ (a b q : ℚ),
      qualContains (.obj [("quality_min", .num a), ("quality_max", .num b)]) (.num q) =
        .ok (decide (a ≤ q ∧ q ≤ b))) ∧
    (∀ (pre : List JVal) (e : JVal) (post : List JVal) (q : JVal) (vk : String),
      (∀ e' ∈ pre, qualContains e' q = .ok false) → qualContains e q = .ok true →
      findQualRange (pre ++ e :: post) q vk = jGetD e vk (.num 0)) ∧
    (∀ (pre : List (String × JVal)) (nm : String) (e : JVal)
      (post : List (String × JVal)) (q : JVal) (vk : String),
      (∀ p ∈ pre, qualContains p.2 q = .ok false) → qualContains e q = .ok true →
      findQualThreshold (pre ++ (nm, e) :: post) q vk = jGetD e vk (.num 0)) := by
  refine ⟨?_, ?_, ?_, ?_⟩
  · intro l q h1 h2
    have hmin : jGetD (JVal.obj l) "quality_min" (.num 0) = .ok (.num 0) := by
      simp [jGetD, h1]
    have hmax : jGetD (JVal.obj l) "quality_max" (.num 1) = .ok (.num 1) := by
      simp [jGetD, h2]
    unfold qualContains
    rw [hmin, hmax]
    show (if (0 : ℚ) ≤ q then (pure (decide (q ≤ 1)) : Except String Bool)
      else pure false) = .ok (decide (0 ≤ q ∧ q ≤ 1))
    rcases le_or_lt 0 q with h | h
    · rw [if_pos h]
      show Except.ok (decide (q ≤ 1)) = Except.ok (decide (0 ≤ q ∧ q ≤ 1))
      congr 1
      rw [decide_eq_decide]
      exact (and_iff_right h).symm
    · rw [if_neg (not_le.2 h)]
      show Except.ok false = Except.ok (decide (0 ≤ q ∧ q ≤ 1))
      congr 1
      symm
      rw [decide_eq_false_iff_not]
      intro hcon
      exact absurd hcon.1 (not_le.2 h)
  · intro a b q
    unfold qualContains
    show (if a ≤ q then (pure (decide (q ≤ b)) : Except String Bool)
      else pure false) = .ok (decide (a ≤ q ∧ q ≤ b))
    rcases le_or_lt a q with h | h
    · rw [if_pos h]
      show Except.ok (decide (q ≤ b)) = Except.ok (decide (a ≤ q ∧ q ≤ b))
      congr 1
      rw [decide_eq_decide]
      exact (and_iff_right h).symm
    · rw [if_neg (not_le.2 h)]
      show Except.ok false = Except.ok (decide (a ≤ q ∧ q ≤ b))
      congr 1
      symm
      rw [decide_eq_false_iff_not]
      intro hcon
      exact absurd hcon.1 (not_le.2 h)
  · intro pre e post q vk hpre he
    induction pre with
    | nil =>
      show findQualRange (e :: post) q vk = jGetD e vk (.num 0)
      unfold findQualRange
      rw [he]
      rfl
    | cons p rest ih =>
      show findQualRange (p :: (rest ++ e :: post)) q vk = jGetD e vk (.num 0)
      unfold findQualRange
      rw [hpre p (by simp)]
      exact ih (fun e' h => hpre e' (by simp [h]))
  · intro pre nm e post q vk hpre he
    induction pre with
    | nil =>
      show findQualThreshold ((nm, e) :: post) q vk = jGetD e vk (.num 0)
      unfold findQualThreshold
      rw [he]
      rfl
    | cons p rest ih =>
      match p with
      | (pn, pd) =>
        show findQualThreshold ((pn, pd) :: (rest ++ (nm, e) :: post)) q vk =
          jGetD e vk (.num 0)
        unfold findQualThreshold
        rw [hpre (pn, pd) (by simp)]
        exact ih (fun p' h => hpre p' (by simp [h]))

/-- Witness for C10 at concrete inputs: an entry with no bounds accepts
quality 1 via the (0, 1) defaults; explicit bounds are inclusive at the
lower end; the first containing range entry (resp. option) wins. -/
theorem C10_quality_bounds_witness :
    qualContains (.obj [("value", .num 7)]) (.num 1) =
      .ok (decide ((0 : ℚ) ≤ 1 ∧ (1 : ℚ) ≤ 1)) ∧
    qualContains (.obj [("quality_min", .num 3), ("quality_max", .num 8)])
      (.num 3) = .ok (decide ((3 : ℚ) ≤ 3 ∧ (3 : ℚ) ≤ 8)) ∧
    findQualRange [JVal.obj [("quality_min", .num 6)],
        JVal.obj [("quality_max", .num 10), ("rate", .num 5)]] (.num 5) "rate" =
      jGetD (JVal.obj [("quality_max", .num 10), ("rate", .num 5)]) "rate" (.num 0) ∧
    findQualThreshold [("recycle", JVal.obj [("quality_min", .num 6)]),
        ("reuse", JVal.obj [("quality_max", .num 10), ("rate", .num 5)])] (.num 5) "rate" =
      jGetD (JVal.obj [("quality_max", .num 10), ("rate", .num 5)]) "rate" (.num 0) :=
  ⟨C10_quality_bounds.1 [("value", .num 7)] 1 rfl rfl,
   C10_quality_bounds.2.1 3 8 3,
   C10_quality_bounds.2.2.1 [JVal.obj [("quality_min", .num 6)]]
     (JVal.obj [("quality_max", .num 10), ("rate", .num 5)]) [] (.num 5) "rate"
     (by
       intro h' hh'
       rw [List.mem_singleton] at hh'
       subst hh'
       rfl)
     rfl,
   C10_quality_bounds.2.2.2 [("recycle", JVal.obj [("quality_min", .num 6)])]
     "reuse" (JVal.obj [("quality_max", .num 10), ("rate", .num 5)]) [] (.num 5) "rate"
     (by
       intro p' hp'
       rw [List.mem_singleton] at hp'
       subst hp'
       rfl)
     rfl⟩

/-- C6: after ranking, `rank_all` is 1 plus the number of experiments
with strictly higher total score (so tied scores share a rank); `rank`
is non-null exactly on feasible rows and applies the same rule among the
feasible rows only; consequently a feasible row holds rank 1 exactly
when no feasible row has a higher total score. -/
theorem C6_dense_ranking (rows : List ScoreRow) (out : RankedRow)
    (hout : out ∈ rank_experiments rows) :
    out.rank_all = (rows.filter (fun s => decide (out.total < s.total))).length + 1 ∧
    (out.rank.isSome ↔ out.feasible = true) ∧
    (out.feasible = true →
      out.rank = some ((rows.filter
        (fun s => s.feasible && decide (out.total < s.total))).length + 1)) ∧
    (out.feasible = true →
      (out.rank = some 1 ↔ ∀ s ∈ rows, s.feasible = true → s.total ≤ out.total)) ∧
    (∀ out2 ∈ rank_experiments rows, out.total = out2.total → out.rank_all = out2.rank_all) := by
  simp only [rank_experiments, List.mem_map] at hout
  obtain ⟨r, hr, hfr⟩ := hout
  subst hfr
  have hff : ∀ (t : ℚ),
      ((rows.filter (fun s => s.feasible)).filter (fun s => decide (t < s.total))) =
        rows.filter (fun s => s.feasible && decide (t < s.total)) := by
    intro t
    rw [List.filter_filter]
    exact List.filter_congr (fun a _ => Bool.and_comm _ _)
  refine ⟨rfl, ?_, ?_, ?_, ?_⟩
  · by_cases h : r.feasible = true <;> simp [h]
  · intro h
    have hfeas : r.feasible = true := h
    show (if r.feasible = true then
        some (((rows.filter (fun s => s.feasible)).filter
          (fun s => decide (r.total < s.total))).length + 1) else none) =
      some ((rows.filter (fun s => s.feasible && decide (r.total < s.total))).length + 1)
    rw [if_pos hfeas, hff r.total]
  · intro h
    have hfeas : r.feasible = true := h
    show (if r.feasible = true then
        some (((rows.filter (fun s => s.feasible)).filter
          (fun s => decide (r.total < s.total))).length + 1) else none) = some 1 ↔
      ∀ s ∈ rows, s.feasible = true → s.total ≤ r.total
    rw [if_pos hfeas]
    constructor
    · intro h1
      have h2 : ((rows.filter (fun s => s.feasible)).filter
          (fun s => decide (r.total < s.total))).length = 0 := by
        have h3 := Option.some.inj h1
        omega
      rw [List.length_eq_zero, List.filter_eq_nil_iff] at h2
      intro s hs hfs
      by_contra hlt
      exact h2 s (List.mem_filter.2 ⟨hs, hfs⟩) (by simpa using not_le.1 hlt)
    · intro hmax
      have h2 : ((rows.filter (fun s => s.feasible)).filter
          (fun s => decide (r.total < s.total))) = [] := by
        rw [List.filter_eq_nil_iff]
        intro s hs
        obtain ⟨hs1, hs2⟩ := List.mem_filter.1 hs
        simpa using not_lt.2 (hmax s hs1 hs2)
      rw [h2]
      rfl
  · intro out2 hout2 heq
    simp only [rank_experiments, List.mem_map] at hout2
    obtain ⟨r2, hr2, hfr2⟩ := hout2
    subst hfr2
    have heq' : r.total = r2.total := heq
    show (rows.filter (fun s => decide (r.total < s.total))).length + 1 =
      (rows.filter (fun s => decide (r2.total < s.total))).length + 1
    rw [show (fun s : ScoreRow => decide (r.total < s.total)) =
      (fun s : ScoreRow => decide (r2.total < s.total)) from
      funext (fun s => by rw [heq'])]

/-- Witness for C6 at a concrete input: three experiments where the
infeasible one holds the top score; the feasible experiment 3 has
rank_all 2 but feasible-only rank 1. -/
theorem C6_dense_ranking_witness :
    (RankedRow.mk 3 7 true 2 (some 1)).rank_all =
      ([ScoreRow.mk 1 10 false, ScoreRow.mk 2 7 true, ScoreRow.mk 3 7 true].filter
        (fun s => decide ((RankedRow.mk 3 7 true 2 (some 1)).total < s.total))).length + 1 ∧
    ((RankedRow.mk 3 7 true 2 (some 1)).rank.isSome ↔
      (RankedRow.mk 3 7 true 2 (some 1)).feasible = true) ∧
    (RankedRow.mk 3 7 true 2 (some 1)).rank =
      some (([ScoreRow.mk 1 10 false, ScoreRow.mk 2 7 true, ScoreRow.mk 3 7 true].filter
        (fun s => s.feasible &&
          decide ((RankedRow.mk 3 7 true 2 (some 1)).total < s.total))).length + 1) := by
  have h := C6_dense_ranking
    [ScoreRow.mk 1 10 false, ScoreRow.mk 2 7 true, ScoreRow.mk 3 7 true]
    (RankedRow.mk 3 7 true 2 (some 1)) (by decide)
  exact ⟨h.1, h.2.1, h.2.2.1 rfl⟩

/-- C9: any aggregation method other than `sum`, `average`, `mean`
(including the documented method `none` and misspellings) silently takes
the target column as-is — `set_index` with no reduction and no error or
warning — and a target table with duplicate experiment ids then makes
the left merge emit more than one row for that experiment id, as the
concrete run below shows (two result rows for experiment 1). -/
theorem C9_none_aggregation_passthrough :
    (∀ (m : String) (t : List (Nat × ℚ)), m ≠ "sum" → m ≠ "average" → m ≠ "mean" →
      aggregateColumn m t = t) ∧
    aggregate_to_experiment_level
      (AggData.mk [1]
        [("df_process", Table.mk ["IND01"] [SrcRow.mk 1 (fun _ => 5)]),
         ("df_system", Table.mk ["IND09"] [SrcRow.mk 1 (fun _ => 4), SrcRow.mk 1 (fun _ => 6)])]
        [Indicator.mk "IND09" "df_system" "none" "minimize" 10 1 "economic"]) =
      some [ExpRow.mk 1 [("IND09", 4)], ExpRow.mk 1 [("IND09", 6)]] := by
  constructor
  · intro m t h1 h2 h3
    simp [aggregateColumn, h1, h2, h3]
  · have hstep : aggregate_to_experiment_level
        (AggData.mk [1]
          [("df_process", Table.mk ["IND01"] [SrcRow.mk 1 (fun _ => 5)]),
           ("df_system", Table.mk ["IND09"]
             [SrcRow.mk 1 (fun _ => 4), SrcRow.mk 1 (fun _ => 6)])]
          [Indicator.mk "IND09" "df_system" "none" "minimize" 10 1 "economic"]) =
        some (roundCols ["IND09"]
          [ExpRow.mk 1 [("IND09", 4)], ExpRow.mk 1 [("IND09", 6)]]) := rfl
    rw [hstep]
    have h4 : round2 (4 : ℚ) = 4 := by norm_num [round2, roundTo, roundHalfEven]
    have h6 : round2 (6 : ℚ) = 6 := by norm_num [round2, roundTo, roundHalfEven]
    simp [roundCols, h4, h6]

/-- Witness for C9's universally quantified part at the concrete method
string `none`. -/
theorem C9_none_aggregation_passthrough_witness :
    aggregateColumn "none" [(1, (4 : ℚ)), (1, 6)] = [(1, 4), (1, 6)] :=
  C9_none_aggregation_passthrough.1 "none" [(1, 4), (1, 6)]
    (by decide) (by decide) (by decide)

/-- C4: for an indicator whose anchored bounds are non-degenerate
(differing by at least 1e-10), normalization computes `best` and `worst`
over ALL experiment rows, anchors `worst = min(worst_raw, threshold)`
for minimize and `worst = max(worst_raw, threshold)` for maximize,
applies `(worst − value)/(worst − best)` (minimize) resp.
`(value − worst)/(best − worst)` (maximize) rounded to two decimals, and
any row holding the globally best raw value is normalized to exactly 1. -/
theorem C4_normalization_bounds (rows : List ExpRow) (i : Indicator) :
    (i.direction = "minimize" →
      ¬(|listMin (valsOf rows i.indicator_id) -
          min (listMax (valsOf rows i.indicator_id)) i.threshold| < 1/10000000000) →
      (normStep rows i = rows.map (fun r =>
        setCol r (i.indicator_id ++ "_normalized")
          (round2 ((min (listMax (valsOf rows i.indicator_id)) i.threshold -
              colVal r i.indicator_id) /
            (min (listMax (valsOf rows i.indicator_id)) i.threshold -
              listMin (valsOf rows i.indicator_id)))))) ∧
      ∀ r ∈ rows, colVal r i.indicator_id = listMin (valsOf rows i.indicator_id) →
        round2 ((min (listMax (valsOf rows i.indicator_id)) i.threshold -
            colVal r i.indicator_id) /
          (min (listMax (valsOf rows i.indicator_id)) i.threshold -
            listMin (valsOf rows i.indicator_id))) = 1) ∧
    (i.direction = "maximize" →
      ¬(|listMax (valsOf rows i.indicator_id) -
          max (listMin (valsOf rows i.indicator_id)) i.threshold| < 1/10000000000) →
      (normStep rows i = rows.map (fun r =>
        setCol r (i.indicator_id ++ "_normalized")
          (round2 ((colVal r i.indicator_id -
              max (listMin (valsOf rows i.indicator_id)) i.threshold) /
            (listMax (valsOf rows i.indicator_id) -
              max (listMin (valsOf rows i.indicator_id)) i.threshold))))) ∧
      ∀ r ∈ rows, colVal r i.indicator_id = listMax (valsOf rows i.indicator_id) →
        round2 ((colVal r i.indicator_id -
            max (listMin (valsOf rows i.indicator_id)) i.threshold) /
          (listMax (valsOf rows i.indicator_id) -
            max (listMin (valsOf rows i.indicator_id)) i.threshold)) = 1) := by
  constructor
  · intro hmin hnd
    have hbmax : (i.direction == "maximize") = false := by rw [hmin]; rfl
    have hbmin : (i.direction == "minimize") = true := by rw [hmin]; rfl
    constructor
    · simp only [normStep, hbmax, hbmin, Bool.false_eq_true, if_false, if_true]
      rw [if_neg hnd]
    · intro r hr hbest
      have hwne : min (listMax (valsOf rows i.indicator_id)) i.threshold -
          listMin (valsOf rows i.indicator_id) ≠ 0 := by
        intro he
        apply hnd
        rw [show listMin (valsOf rows i.indicator_id) =
          min (listMax (valsOf rows i.indicator_id)) i.threshold from by linarith]
        simp
      rw [hbest, div_self hwne]
      exact round2_one
  · intro hmax hnd
    have hbmax : (i.direction == "maximize") = true := by rw [hmax]; rfl
    have hbmin : (i.direction == "minimize") = false := by rw [hmax]; rfl
    constructor
    · simp only [normStep, hbmax, hbmin, Bool.false_eq_true, if_false, if_true]
      rw [if_neg hnd]
    · intro r hr hbest
      have hwne : listMax (valsOf rows i.indicator_id) -
          max (listMin (valsOf rows i.indicator_id)) i.threshold ≠ 0 := by
        intro he
        apply hnd
        rw [show listMax (valsOf rows i.indicator_id) =
          max (listMin (valsOf rows i.indicator_id)) i.threshold from by linarith]
        simp
      rw [hbest, div_self hwne]
      exact round2_one

/-- Witness for C4 at the spec's concrete scenario; the third experiment
holds the best raw value 110 and is normalized to exactly 1. -/
theorem C4_normalization_bounds_witness :
    (normStep c4Rows c4Ind = c4Rows.map (fun r =>
      setCol r (c4Ind.indicator_id ++ "_normalized")
        (round2 ((min (listMax (valsOf c4Rows c4Ind.indicator_id)) c4Ind.threshold -
            colVal r c4Ind.indicator_id) /
          (min (listMax (valsOf c4Rows c4Ind.indicator_id)) c4Ind.threshold -
            listMin (valsOf c4Rows c4Ind.indicator_id)))))) ∧
    round2 ((min (listMax (valsOf c4Rows c4Ind.indicator_id)) c4Ind.threshold -
        colVal (ExpRow.mk 3 [("IND01", 110)]) c4Ind.indicator_id) /
      (min (listMax (valsOf c4Rows c4Ind.indicator_id)) c4Ind.threshold -
        listMin (valsOf c4Rows c4Ind.indicator_id))) = 1 := by
  have hL : valsOf c4Rows c4Ind.indicator_id = [125, 150, 110] := by
    simp [valsOf, c4Rows, c4Ind, colVal]
  have hmn : listMin [(125 : ℚ), 150, 110] = 110 := by
    norm_num [listMin, min_def]
  have hmx : listMax [(125 : ℚ), 150, 110] = 150 := by
    norm_num [listMax, max_def]
  have hnd : ¬(|listMin (valsOf c4Rows c4Ind.indicator_id) -
      min (listMax (valsOf c4Rows c4Ind.indicator_id)) c4Ind.threshold| <
      1/10000000000) := by
    rw [hL, hmn, hmx]
    show ¬(|(110 : ℚ) - min 150 1000| < 1/10000000000)
    norm_num [min_def]
  have hbest : colVal (ExpRow.mk 3 [("IND01", 110)]) c4Ind.indicator_id =
      listMin (valsOf c4Rows c4Ind.indicator_id) := by
    rw [hL, hmn]
    rfl
  have h := (C4_normalization_bounds c4Rows c4Ind).1 rfl hnd
  exact ⟨h.1, h.2 (ExpRow.mk 3 [("IND01", 110)]) (by simp [c4Rows]) hbest⟩

/-- C5: if every experiment shares the same aggregated value for an
indicator, every normalized value for that indicator is exactly 1 —
through the explicit degenerate branch when the anchored bounds
collapse, and through the general formula when the shared value violates
the threshold so that the worst bound is anchored at the threshold. -/
theorem C5_identical_values (rows : List ExpRow) (i : Indicator) (c : ℚ)
    (h : ∀ r ∈ rows, colVal r i.indicator_id = c) :
    normStep rows i = rows.map (fun r => setCol r (i.indicator_id ++ "_normalized") 1) := by
  cases hrows : rows with
  | nil => simp [normStep]
  | cons r0 rest =>
    subst hrows
    have hvals : ∀ x ∈ valsOf (r0 :: rest) i.indicator_id, x = c := by
      intro x hx
      obtain ⟨r, hr, hrx⟩ := List.mem_map.1 hx
      rw [← hrx]
      exact h r hr
    have hne : valsOf (r0 :: rest) i.indicator_id ≠ [] := by
      simp [valsOf]
    have hminL : listMin (valsOf (r0 :: rest) i.indicator_id) = c :=
      listMin_const c _ hvals hne
    have hmaxL : listMax (valsOf (r0 :: rest) i.indicator_id) = c :=
      listMax_const c _ hvals hne
    by_cases hdmax : i.direction = "maximize"
    · have hbmax : (i.direction == "maximize") = true := by rw [hdmax]; rfl
      have hbmin : (i.direction == "minimize") = false := by rw [hdmax]; rfl
      simp only [normStep, hbmax, hbmin, Bool.false_eq_true, if_false, if_true]
      rw [hminL, hmaxL]
      by_cases hdeg : |c - max c i.threshold| < 1/10000000000
      · rw [if_pos hdeg]
      · rw [if_neg hdeg]
        apply List.map_congr_left
        intro r hr
        have hne0 : c - max c i.threshold ≠ 0 := fun he => hdeg (by rw [he]; norm_num)
        rw [h r hr, div_self hne0, round2_one]
    · by_cases hdmin : i.direction = "minimize"
      · have hbmax : (i.direction == "maximize") = false := by rw [hdmin]; rfl
        have hbmin : (i.direction == "minimize") = true := by rw [hdmin]; rfl
        simp only [normStep, hbmax, hbmin, Bool.false_eq_true, if_false, if_true]
        rw [hminL, hmaxL]
        by_cases hdeg : |c - min c i.threshold| < 1/10000000000
        · rw [if_pos hdeg]
        · rw [if_neg hdeg]
          apply List.map_congr_left
          intro r hr
          have hne0 : min c i.threshold - c ≠ 0 := fun he => by
            apply hdeg
            rw [show c = min c i.threshold from by linarith]
            norm_num
          rw [h r hr, div_self hne0, round2_one]
      · have hbmax : (i.direction == "maximize") = false := by
          cases hb : i.direction == "maximize"
          · rfl
          · exact absurd (eq_of_beq hb) hdmax
        have hbmin : (i.direction == "minimize") = false := by
          cases hb : i.direction == "minimize"
          · rfl
          · exact absurd (eq_of_beq hb) hdmin
        simp only [normStep, hbmax, hbmin, Bool.false_eq_true, if_false, if_true]
        rw [hminL, hmaxL]
        by_cases hdeg : |c - max c i.threshold| < 1/10000000000
        · rw [if_pos hdeg]
        · rw [if_neg hdeg]
          apply List.map_congr_left
          intro r hr
          have hne0 : max c i.threshold - c ≠ 0 := fun he => by
            apply hdeg
            rw [show c = max c i.threshold from by linarith]
            norm_num
          rw [h r hr, div_self hne0, round2_one]

/-- Witness for C5 at a concrete input: both experiments share value 7
on a minimize indicator with threshold 3, so the shared value violates
the threshold, the worst bound is anchored at 3, and the general formula
yields exactly 1 for both rows. -/
theorem C5_identical_values_witness :
    normStep [ExpRow.mk 1 [("IND02", 7)], ExpRow.mk 2 [("IND02", 7)]]
      (Indicator.mk "IND02" "df_product" "average" "minimize" 3 1 "environmental") =
    [ExpRow.mk 1 [("IND02", 7)], ExpRow.mk 2 [("IND02", 7)]].map
      (fun r => setCol r ("IND02" ++ "_normalized") 1) :=
  C5_identical_values [ExpRow.mk 1 [("IND02", 7)], ExpRow.mk 2 [("IND02", 7)]]
    (Indicator.mk "IND02" "df_product" "average" "minimize" 3 1 "environmental") 7
    (by
      intro r hr
      rcases List.mem_cons.1 hr with h1 | h1
      · rw [h1]; rfl
      · rw [List.mem_singleton] at h1
        rw [h1]; rfl)

theorem find?_overwrite (l : List (String × ℚ)) (c : String) (v : ℚ)
    (h : l.any (fun p => p.1 == c) = true) :
    (l.map (fun p => if p.1 == c then (c, v) else p)).find? (fun p => p.1 == c) =
      some (c, v) := by
  induction l with
  | nil => simp at h
  | cons p rest ih =>
    by_cases hp : p.1 = c
    · have hb : (p.1 == c) = true := by simp [hp]
      simp only [List.map_cons, hb, if_true]
      exact List.find?_cons_of_pos _ (by simp)
    · have hb : (p.1 == c) = false := by simp [hp]
      have h' : rest.any (fun p => p.1 == c) = true := by
        simp only [List.any_cons, hb, Bool.false_or] at h
        exact h
      simp only [List.map_cons, hb, Bool.false_eq_true, if_false]
      rw [List.find?_cons_of_neg _ (by simp [hp])]
      exact ih h'

theorem find?_append_fresh (l : List (String × ℚ)) (c : String) (v : ℚ)
    (h : l.any (fun p => p.1 == c) = false) :
    (l ++ [(c, v)]).find? (fun p => p.1 == c) = some (c, v) := by
  induction l with
  | nil => simp
  | cons p rest ih =>
    have hb : (p.1 == c) = false := by
      cases hx : p.1 == c
      · rfl
      · exfalso
        simp only [List.any_cons, hx] at h
        simp at h
    have h' : rest.any (fun p => p.1 == c) = false := by
      simp only [List.any_cons, hb, Bool.false_or] at h
      exact h
    rw [List.cons_append, List.find?_cons_of_neg _ (by simp [beq_eq_false_iff_ne.1 hb])]
    exact ih h'

theorem colVal_setCol_self (r : ExpRow) (c : String) (v : ℚ) :
    colVal (setCol r c v) c = v := by
  unfold setCol
  by_cases h : r.cols.any (fun p => p.1 == c) = true
  · rw [if_pos h]
    unfold colVal
    simp only []
    rw [find?_overwrite r.cols c v h]
  · have h' : r.cols.any (fun p => p.1 == c) = false := by
      cases hx : r.cols.any (fun p => p.1 == c)
      · rfl
      · exact absurd hx h
    rw [if_neg (by rw [h']; simp)]
    unfold colVal
    simp only []
    rw [find?_append_fresh r.cols c v h']

theorem find?_map_overwrite_ne (l : List (String × ℚ)) (c c' : String) (v : ℚ)
    (h : c' ≠ c) :
    (l.map (fun p => if p.1 == c then (c, v) else p)).find? (fun p => p.1 == c') =
      l.find? (fun p => p.1 == c') := by
  have hcc : ¬(c = c') := fun he => h he.symm
  induction l with
  | nil => rfl
  | cons p rest ih =>
    by_cases hp : p.1 = c
    · have hb : (p.1 == c) = true := by simp [hp]
      have hb2 : ¬(p.1 = c') := by rw [hp]; exact hcc
      simp only [List.map_cons, hb, if_true]
      rw [List.find?_cons_of_neg _ (by simp [hcc]),
        List.find?_cons_of_neg _ (by simp [hb2])]
      exact ih
    · have hb : (p.1 == c) = false := by simp [hp]
      simp only [List.map_cons, hb, Bool.false_eq_true, if_false]
      rw [List.find?_cons, List.find?_cons]
      cases hx : p.1 == c'
      · simp only [hx]
        exact ih
      · simp only [hx]

theorem colVal_setCol_ne (r : ExpRow) (c c' : String) (v : ℚ) (h : c' ≠ c) :
    colVal (setCol r c v) c' = colVal r c' := by
  unfold setCol
  by_cases ha : r.cols.any (fun p => p.1 == c) = true
  · rw [if_pos ha]
    unfold colVal
    simp only []
    rw [find?_map_overwrite_ne r.cols c c' v h]
  · have ha' : r.cols.any (fun p => p.1 == c) = false := by
      cases hx : r.cols.any (fun p => p.1 == c)
      · rfl
      · exact absurd hx ha
    rw [if_neg (by rw [ha']; simp)]
    unfold colVal
    simp only []
    rw [List.find?_append]
    have h0 : List.find? (fun p => p.1 == c') [(c, v)] = none := by
      rw [List.find?_cons_of_neg _ (by simp; exact fun he => h he.symm)]
      rfl
    rw [h0]
    cases List.find? (fun p => p.1 == c') r.cols <;> rfl

theorem append_ne_of_drop_ne (s t target : String)
    (h : target.data.drop (target.data.length - t.data.length) ≠ t.data) :
    s ++ t ≠ target := by
  intro he
  apply h
  have hd : target.data = s.data ++ t.data := by
    rw [← he, String.data_append]
  rw [hd, List.length_append, Nat.add_sub_cancel, List.drop_left]

theorem weighted_ne_economic (s : String) : s ++ "_weighted" ≠ "economic_score" :=
  append_ne_of_drop_ne s _ _ (by decide)

theorem weighted_ne_environmental (s : String) :
    s ++ "_weighted" ≠ "environmental_score" :=
  append_ne_of_drop_ne s _ _ (by decide)

theorem weighted_ne_total (s : String) : s ++ "_weighted" ≠ "total_weighted_score" :=
  append_ne_of_drop_ne s _ _ (by decide)

theorem scoreCols_append_score (ns : List String) (inds : List Indicator) (nm : String)
    (h : ∀ s : String, s ++ "_weighted" ≠ nm) :
    scoreCols (ns ++ [nm]) inds = scoreCols ns inds := by
  unfold scoreCols
  apply List.filter_congr
  intro w hw
  obtain ⟨i, _, hwi⟩ := List.mem_map.1 hw
  have hne : w ≠ nm := by
    rw [← hwi]
    exact h i.indicator_id
  show ((ns ++ [nm]).contains w) = (ns.contains w)
  simp [hne]

theorem addScoreCol_numCols (df : DF) (nm : String) (cs : List String) (prec : ℕ) :
    (addScoreCol df nm cs prec).numCols = df.numCols ++ [nm] := by
  unfold addScoreCol
  by_cases h : cs.isEmpty <;> simp [h]

theorem addScoreCol_rows (df : DF) (nm : String) (cs : List String) (prec : ℕ) :
    (addScoreCol df nm cs prec).rows = df.rows.map (fun r =>
      setCol r nm (if cs.isEmpty then 0
        else roundTo prec ((cs.map (fun c => colVal r c)).sum))) := by
  unfold addScoreCol
  by_cases h : cs.isEmpty <;> simp [h]

theorem scoreCols_mem (ns : List String) (inds : List Indicator) (w : String)
    (hw : w ∈ scoreCols ns inds) : ∃ i ∈ inds, w = i.indicator_id ++ "_weighted" := by
  unfold scoreCols at hw
  obtain ⟨hw1, _⟩ := List.mem_filter.1 hw
  obtain ⟨i, hi, hwi⟩ := List.mem_map.1 hw1
  exact ⟨i, hi, hwi.symm⟩

/-- C8: for every experiment row after `calculate_total_score`,
`total_weighted_score` is the rounded sum of the weighted columns of ALL
indicators whose weighted column exists in the DataFrame, computed
directly from those columns and not from the two category subtotals —
so a partially configured category set leaves the total equal to the
direct sum of the available weighted columns (and the empty set falls
back to the constant 0). -/
theorem C8_total_score (df : DF) (inds : List Indicator) (prec : ℕ) :
    ∀ r ∈ (calculate_total_score df inds prec).rows,
      colVal r "total_weighted_score" =
        (if (scoreCols df.numCols inds).isEmpty then 0
         else roundTo prec (((scoreCols df.numCols inds).map (fun c => colVal r c)).sum)) := by
  intro r hr
  unfold calculate_total_score at hr
  rw [addScoreCol_rows] at hr
  obtain ⟨r2, hr2, hrr⟩ := List.mem_map.1 hr
  have htc : scoreCols (addScoreCol
      (addScoreCol df "economic_score"
        (scoreCols df.numCols (inds.filter (fun i => i.category == "economic"))) prec)
      "environmental_score"
      (scoreCols (addScoreCol df "economic_score"
        (scoreCols df.numCols (inds.filter (fun i => i.category == "economic"))) prec).numCols
        (inds.filter (fun i => i.category == "environmental"))) prec).numCols inds =
      scoreCols df.numCols inds := by
    rw [addScoreCol_numCols, addScoreCol_numCols,
      scoreCols_append_score _ _ _ weighted_ne_environmental,
      scoreCols_append_score _ _ _ weighted_ne_economic]
  rw [htc] at hrr
  subst hrr
  rw [colVal_setCol_self]
  by_cases h : (scoreCols df.numCols inds).isEmpty
  · rw [if_pos h, if_pos h]
  · rw [if_neg h, if_neg h]
    congr 1
    congr 1
    apply List.map_congr_left
    intro w hw
    obtain ⟨i, _, hwi⟩ := scoreCols_mem df.numCols inds w hw
    have hne : w ≠ "total_weighted_score" := by
      rw [hwi]
      exact weighted_ne_total i.indicator_id
    rw [colVal_setCol_ne _ _ _ _ hne]

/-- Witness for C8 at a concrete input: an economic indicator with a
weighted column present and an environmental one whose weighted column
is missing; the total equals the direct rounded sum of the single
available weighted column. -/
theorem C8_total_score_witness :
    colVal (ExpRow.mk 1 [("IND01_weighted", 0), ("economic_score", 0),
        ("environmental_score", 0), ("total_weighted_score", 0)]) "total_weighted_score" =
      (if (scoreCols ["IND01_weighted"]
          [Indicator.mk "IND01" "df_process" "sum" "minimize" 10 1 "economic",
           Indicator.mk "IND02" "df_product" "sum" "minimize" 10 1 "environmental"]).isEmpty
        then 0
        else roundTo 2 (((scoreCols ["IND01_weighted"]
          [Indicator.mk "IND01" "df_process" "sum" "minimize" 10 1 "economic",
           Indicator.mk "IND02" "df_product" "sum" "minimize" 10 1 "environmental"]).map
            (fun c => colVal (ExpRow.mk 1 [("IND01_weighted", 0), ("economic_score", 0),
              ("environmental_score", 0), ("total_weighted_score", 0)]) c)).sum)) := by
  apply C8_total_score
    (DF.mk ["IND01_weighted"] [ExpRow.mk 1 [("IND01_weighted", 0)]])
    [Indicator.mk "IND01" "df_process" "sum" "minimize" 10 1 "economic",
     Indicator.mk "IND02" "df_product" "sum" "minimize" 10 1 "environmental"] 2
  simp [calculate_total_score, addScoreCol, scoreCols, setCol, colVal, roundTo_zero]

theorem setCol_exp_id (r : ExpRow) (c : String) (v : ℚ) :
    (setCol r c v).exp_id = r.exp_id := by
  unfold setCol
  by_cases h : r.cols.any (fun p => p.1 == c) = true <;> simp [h]

theorem mem_setCol_ne (r : ExpRow) (c : String) (v : ℚ) (c' : String) (x : ℚ)
    (h : c' ≠ c) (hm : (c', x) ∈ r.cols) : (c', x) ∈ (setCol r c v).cols := by
  unfold setCol
  by_cases ha : r.cols.any (fun p => p.1 == c) = true
  · rw [if_pos ha]
    simp only []
    have : (fun p : String × ℚ => if p.1 == c then (c, v) else p) (c', x) = (c', x) := by
      have hb : ((c', x).1 == c) = false := by simp [h]
      simp [hb]
    rw [← this]
    exact List.mem_map_of_mem _ hm
  · rw [if_neg ha]
    simp only []
    exact List.mem_append_left _ hm

theorem colNames_setCol (r : ExpRow) (c : String) (v : ℚ) :
    ∀ n ∈ (setCol r c v).cols.map Prod.fst, n ∈ r.cols.map Prod.fst ∨ n = c := by
  intro n hn
  unfold setCol at hn
  by_cases ha : r.cols.any (fun p => p.1 == c) = true
  · rw [if_pos ha] at hn
    simp only [List.map_map] at hn
    obtain ⟨p, hp, hpn⟩ := List.mem_map.1 hn
    by_cases hpc : (p.1 == c) = true
    · right
      simp only [Function.comp, hpc, if_true] at hpn
      exact hpn.symm
    · left
      have : (p.1 == c) = false := by
        cases hx : p.1 == c
        · rfl
        · exact absurd hx hpc
      simp only [Function.comp, this, Bool.false_eq_true, if_false] at hpn
      rw [← hpn]
      exact List.mem_map_of_mem _ hp
  · rw [if_neg ha] at hn
    simp only [List.map_append] at hn
    rcases List.mem_append.1 hn with h1 | h1
    · exact Or.inl h1
    · right
      simpa using h1

theorem mergeIndicator_exists (rows : List ExpRow) (agg : List (Nat × ℚ)) (c : String)
    (r : ExpRow) (hr : r ∈ rows) :
    ∃ r' ∈ mergeIndicator rows agg c, r'.exp_id = r.exp_id := by
  unfold mergeIndicator
  cases hm : agg.filter (fun p => p.1 == r.exp_id) with
  | nil =>
    refine ⟨setCol r c 0, List.mem_flatMap.2 ⟨r, hr, ?_⟩, setCol_exp_id r c 0⟩
    rw [hm]
    simp
  | cons m ms =>
    refine ⟨setCol r c m.2, List.mem_flatMap.2 ⟨r, hr, ?_⟩, setCol_exp_id r c m.2⟩
    rw [hm]
    exact List.mem_map_of_mem _ (by simp)

theorem mergeIndicator_src (rows : List ExpRow) (agg : List (Nat × ℚ)) (c : String) :
    ∀ r' ∈ mergeIndicator rows agg c, ∃ r ∈ rows, ∃ v : ℚ,
      r' = setCol r c v ∧ (agg.filter (fun p => p.1 == r.exp_id) = [] → v = 0) := by
  intro r' hr'
  unfold mergeIndicator at hr'
  obtain ⟨r, hr, hmem⟩ := List.mem_flatMap.1 hr'
  cases hm : agg.filter (fun p => p.1 == r.exp_id) with
  | nil =>
    rw [hm] at hmem
    simp only [List.mem_singleton] at hmem
    exact ⟨r, hr, 0, hmem, fun _ => rfl⟩
  | cons m ms =>
    rw [hm] at hmem
    obtain ⟨p, _, hps⟩ := List.mem_map.1 hmem
    exact ⟨r, hr, p.2, hps.symm, fun he => absurd (he ▸ hm) (by simp)⟩

theorem aggregateColumn_keys (method : String) (t : List (Nat × ℚ)) :
    ∀ k ∈ (aggregateColumn method t).map Prod.fst, k ∈ t.map Prod.fst := by
  intro k hk
  unfold aggregateColumn at hk
  by_cases h1 : (method == "sum") = true
  · rw [if_pos h1] at hk
    unfold groupSum groupKeys at hk
    simp only [List.map_map] at hk
    obtain ⟨x, hx, hxk⟩ := List.mem_map.1 hk
    simp only [Function.comp] at hxk
    rw [← hxk]
    exact List.mem_dedup.1 hx
  · rw [if_neg h1] at hk
    by_cases h2 : (method == "average" || method == "mean") = true
    · rw [if_pos h2] at hk
      unfold groupMean groupKeys at hk
      simp only [List.map_map] at hk
      obtain ⟨x, hx, hxk⟩ := List.mem_map.1 hk
      simp only [Function.comp] at hxk
      rw [← hxk]
      exact List.mem_dedup.1 hx
    · rw [if_neg h2] at hk
      exact hk

theorem any_key_eq_false (l : List (String × ℚ)) (c : String)
    (h : c ∉ l.map Prod.fst) : l.any (fun p => p.1 == c) = false := by
  rw [List.any_eq_false]
  intro p hp
  simp only [beq_iff_eq]
  intro he
  apply h
  rw [← he]
  exact List.mem_map_of_mem _ hp

theorem setCol_cols_fresh (r : ExpRow) (c : String) (v : ℚ)
    (h : c ∉ r.cols.map Prod.fst) : (setCol r c v).cols = r.cols ++ [(c, v)] := by
  unfold setCol
  rw [if_neg (by rw [any_key_eq_false r.cols c h]; simp)]

theorem aggStep_exists (tables : List (String × Table)) (rows : List ExpRow)
    (i : Indicator) (r : ExpRow) (hr : r ∈ rows) :
    ∃ r' ∈ aggStep tables rows i, r'.exp_id = r.exp_id := by
  unfold aggStep
  cases hl : lookupTable tables i.target_dataframe with
  | none => exact ⟨r, hr, rfl⟩
  | some t =>
    dsimp only
    by_cases hc : t.cols.contains i.indicator_id = true
    · rw [if_pos hc]
      exact mergeIndicator_exists rows _ i.indicator_id r hr
    · rw [if_neg hc]
      exact ⟨r, hr, rfl⟩

theorem foldl_aggStep_exists (tables : List (String × Table)) :
    ∀ (inds : List Indicator) (rows : List ExpRow) (e : Nat),
    (∃ r ∈ rows, r.exp_id = e) →
    ∃ r' ∈ inds.foldl (aggStep tables) rows, r'.exp_id = e := by
  intro inds
  induction inds with
  | nil => intro rows e h; exact h
  | cons j rest ih =>
    intro rows e h
    rw [List.foldl_cons]
    apply ih
    obtain ⟨r, hr, hre⟩ := h
    obtain ⟨r', hr', hre'⟩ := aggStep_exists tables rows j r hr
    exact ⟨r', hr', hre'.trans hre⟩

theorem foldl_preserves_colmem (tables : List (String × Table)) (e : Nat) (c : String)
    (x : ℚ) : ∀ (inds : List Indicator) (rows : List ExpRow),
    (∀ j ∈ inds, j.indicator_id ≠ c) →
    (∀ r ∈ rows, r.exp_id = e → (c, x) ∈ r.cols) →
    ∀ r' ∈ inds.foldl (aggStep tables) rows, r'.exp_id = e → (c, x) ∈ r'.cols := by
  intro inds
  induction inds with
  | nil => intro rows _ h r' hr' he; exact h r' hr' he
  | cons j rest ih =>
    intro rows hc h
    rw [List.foldl_cons]
    apply ih (aggStep tables rows j) (fun j' hj' => hc j' (by simp [hj']))
    intro r1 hr1 he1
    unfold aggStep at hr1
    cases hl : lookupTable tables j.target_dataframe with
    | none =>
      rw [hl] at hr1
      exact h r1 hr1 he1
    | some t =>
      rw [hl] at hr1
      dsimp only at hr1
      by_cases hcc : t.cols.contains j.indicator_id = true
      · rw [if_pos hcc] at hr1
        obtain ⟨r, hr, v, hrv, _⟩ := mergeIndicator_src rows _ _ r1 hr1
        have hre : r.exp_id = e := by
          rw [← he1, hrv, setCol_exp_id]
        rw [hrv]
        exact mem_setCol_ne r _ v c x (fun hce => hc j (by simp) hce.symm) (h r hr hre)
      · rw [if_neg hcc] at hr1
        exact h r1 hr1 he1

theorem aggStep_src (tables : List (String × Table)) (rows : List ExpRow) (j : Indicator) :
    ∀ r1 ∈ aggStep tables rows j,
      r1 ∈ rows ∨ ∃ r ∈ rows, ∃ v : ℚ, r1 = setCol r j.indicator_id v := by
  intro r1 hr1
  unfold aggStep at hr1
  cases hl : lookupTable tables j.target_dataframe with
  | none =>
    rw [hl] at hr1
    exact Or.inl hr1
  | some t =>
    rw [hl] at hr1
    dsimp only at hr1
    by_cases hcc : t.cols.contains j.indicator_id = true
    · rw [if_pos hcc] at hr1
      obtain ⟨r, hr, v, hrv, _⟩ := mergeIndicator_src rows _ _ r1 hr1
      exact Or.inr ⟨r, hr, v, hrv⟩
    · rw [if_neg hcc] at hr1
      exact Or.inl hr1

theorem foldl_zero_fill (tables : List (String × Table)) (e : Nat) :
    ∀ (inds : List Indicator) (rows : List ExpRow),
    (inds.map (fun j => j.indicator_id)).Nodup →
    (∀ r ∈ rows, ∀ j ∈ inds, j.indicator_id ∉ r.cols.map Prod.fst) →
    ∀ i ∈ inds, ∀ t, lookupTable tables i.target_dataframe = some t →
    t.cols.contains i.indicator_id = true →
    (∀ tr ∈ t.rows, tr.exp_id ≠ e) →
    ∀ r' ∈ inds.foldl (aggStep tables) rows, r'.exp_id = e →
      (i.indicator_id, (0 : ℚ)) ∈ r'.cols := by
  intro inds
  induction inds with
  | nil => intro rows _ _ i hi; exact absurd hi (List.not_mem_nil i)
  | cons j rest ih =>
    intro rows hnd hdisj i hi t ht hcol hempty r' hr' he'
    rw [List.foldl_cons] at hr'
    have hndrest : (rest.map (fun j => j.indicator_id)).Nodup := by
      rw [List.map_cons] at hnd
      exact (List.nodup_cons.1 hnd).2
    have hheadnotin : j.indicator_id ∉ rest.map (fun j => j.indicator_id) := by
      rw [List.map_cons] at hnd
      exact (List.nodup_cons.1 hnd).1
    rcases List.mem_cons.1 hi with hij | hirest
    · subst hij
      have hstep : ∀ r1 ∈ aggStep tables rows i, r1.exp_id = e →
          (i.indicator_id, (0 : ℚ)) ∈ r1.cols := by
        intro r1 hr1 he1
        unfold aggStep at hr1
        rw [ht] at hr1
        dsimp only at hr1
        rw [if_pos hcol] at hr1
        obtain ⟨r, hr, v, hrv, hv0⟩ := mergeIndicator_src rows _ _ r1 hr1
        have hre : r.exp_id = e := by
          rw [← he1, hrv, setCol_exp_id]
        have hfilter : ((aggregateColumn i.aggregation
            (t.rows.map (fun sr => (sr.exp_id, sr.get i.indicator_id)))).filter
              (fun p => p.1 == r.exp_id)) = [] := by
          rw [List.filter_eq_nil_iff]
          intro p hp
          simp only [beq_iff_eq]
          intro hpe
          have hk : p.1 ∈ (t.rows.map (fun sr => (sr.exp_id, sr.get i.indicator_id))).map
              Prod.fst :=
            aggregateColumn_keys i.aggregation _ p.1 (List.mem_map_of_mem _ hp)
          simp only [List.map_map] at hk
          obtain ⟨sr, hsr, hsrk⟩ := List.mem_map.1 hk
          apply hempty sr hsr
          simp only [Function.comp] at hsrk
          rw [hsrk, hpe, hre]
        rw [hrv, hv0 hfilter]
        have hfresh : i.indicator_id ∉ r.cols.map Prod.fst :=
          hdisj r hr i (by simp)
        rw [setCol_cols_fresh r _ _ hfresh]
        simp
      have hne : ∀ j' ∈ rest, j'.indicator_id ≠ i.indicator_id := by
        intro j' hj' heq
        exact hheadnotin (heq ▸ List.mem_map_of_mem _ hj')
      exact foldl_preserves_colmem tables e i.indicator_id 0 rest
        (aggStep tables rows i) hne hstep r' hr' he'
    · have hdisj1 : ∀ r1 ∈ aggStep tables rows j, ∀ j' ∈ rest,
          j'.indicator_id ∉ r1.cols.map Prod.fst := by
        intro r1 hr1 j' hj' hmem
        rcases aggStep_src tables rows j r1 hr1 with hin | ⟨r, hr, v, hrv⟩
        · exact hdisj r1 hin j' (by simp [hj']) hmem
        · rw [hrv] at hmem
          rcases colNames_setCol r j.indicator_id v j'.indicator_id hmem with h1 | h1
          · exact hdisj r hr j' (by simp [hj']) h1
          · exact hheadnotin (h1 ▸ List.mem_map_of_mem _ hj')
      exact ih (aggStep tables rows j) hndrest hdisj1 i hirest t ht hcol hempty r' hr' he'

theorem roundCols_src (cs : List String) (rows : List ExpRow) :
    ∀ r' ∈ roundCols cs rows, ∃ r ∈ rows, r'.exp_id = r.exp_id ∧
      ∀ c : String, (c, (0 : ℚ)) ∈ r.cols → (c, (0 : ℚ)) ∈ r'.cols := by
  intro r' hr'
  unfold roundCols at hr'
  obtain ⟨r, hr, hrr⟩ := List.mem_map.1 hr'
  refine ⟨r, hr, by rw [← hrr], ?_⟩
  intro c hc
  rw [← hrr]
  simp only []
  have himg : (fun p : String × ℚ => if cs.contains p.1 then (p.1, round2 p.2) else p)
      (c, 0) = (c, 0) := by
    by_cases h : cs.contains c = true <;> simp [h, round2_zero]
  rw [← himg]
  exact List.mem_map_of_mem _ hc

theorem roundCols_exists (cs : List String) (rows : List ExpRow) (e : Nat)
    (h : ∃ r ∈ rows, r.exp_id = e) : ∃ r' ∈ roundCols cs rows, r'.exp_id = e := by
  obtain ⟨r, hr, hre⟩ := h
  refine ⟨{ r with cols := r.cols.map (fun p =>
    if cs.contains p.1 then (p.1, round2 p.2) else p) }, ?_, hre⟩
  unfold roundCols
  exact List.mem_map_of_mem _ hr

/-- Counterexample to C1 as stated: experiment 2 is in the design table
and in the source entity table `df_product`, yet the aggregated table
contains no row for it — the skeleton is restricted to the experiment
ids of `df_process` alone, not of "at least one source entity table". -/
theorem C1_skeleton_counterexample :
    2 ∈ c1Data.doe ∧
    (∃ t, lookupTable c1Data.tables "df_product" = some t ∧
      2 ∈ t.rows.map (fun sr => sr.exp_id)) ∧
    aggregate_to_experiment_level c1Data =
      some [ExpRow.mk 1 [("IND01", 5), ("IND02", 0)]] ∧
    ∀ r ∈ [ExpRow.mk 1 [("IND01", 5), ("IND02", 0)]], r.exp_id ≠ 2 := by
  refine ⟨by simp [c1Data],
    ⟨Table.mk ["IND02"] [SrcRow.mk 2 (fun _ => 7)], rfl, by simp⟩, ?_, by simp⟩
  have hstep : aggregate_to_experiment_level c1Data =
      some (roundCols ["IND01", "IND02"] [ExpRow.mk 1 [("IND01", 5), ("IND02", 0)]]) := rfl
  rw [hstep]
  have h5 : round2 (5 : ℚ) = 5 := by norm_num [round2, roundTo, roundHalfEven]
  simp [roundCols, h5, round2_zero]

/-- C1 amended: the skeleton keeps exactly the design-table experiments
present in `df_process` (not "in at least one source entity table").
For every experiment id in the design table and in `df_process`, the
aggregated table contains a row for it, and if an indicator's target
table has no rows for that experiment, that row carries value 0 for the
indicator instead of being removed (indicator ids assumed distinct,
matching the configuration). -/
theorem C1_amended_process_restriction (d : AggData) (res : List ExpRow)
    (hres : aggregate_to_experiment_level d = some res)
    (hnodup : (d.indicators.map (fun i => i.indicator_id)).Nodup)
    (e : Nat) (he : e ∈ d.doe)
    (dfp : Table) (hdfp : lookupTable d.tables "df_process" = some dfp)
    (hep : e ∈ dfp.rows.map (fun sr => sr.exp_id)) :
    (∃ r ∈ res, r.exp_id = e) ∧
    ∀ i ∈ d.indicators, ∀ t, lookupTable d.tables i.target_dataframe = some t →
      t.cols.contains i.indicator_id = true →
      (∀ tr ∈ t.rows, tr.exp_id ≠ e) →
      ∀ r ∈ res, r.exp_id = e → (i.indicator_id, (0 : ℚ)) ∈ r.cols := by
  have h1 : d.doe.isEmpty = false := by
    cases hx : d.doe
    · exact absurd (hx ▸ he) (List.not_mem_nil e)
    · rfl
  have h2 : dfp.rows.isEmpty = false := by
    cases hx : dfp.rows
    · rw [hx] at hep
      simp at hep
    · rfl
  have h3 : (dfp.rows.map (fun r => r.exp_id)).isEmpty = false := by
    cases hx : dfp.rows.map (fun r => r.exp_id)
    · exact absurd (hx ▸ hep) (List.not_mem_nil e)
    · rfl
  have hcont : (dfp.rows.map (fun r => r.exp_id)).contains e = true :=
    List.elem_eq_true_of_mem hep
  have hskelmem : ExpRow.mk e [] ∈ (d.doe.filter (fun x =>
      (dfp.rows.map (fun r => r.exp_id)).contains x)).map (fun x => ExpRow.mk x []) :=
    List.mem_map_of_mem _ (List.mem_filter.2 ⟨he, hcont⟩)
  have h4 : ((d.doe.filter (fun x => (dfp.rows.map (fun r => r.exp_id)).contains x)).map
      (fun x => ExpRow.mk x [])).isEmpty = false := by
    cases hx : (d.doe.filter (fun x => (dfp.rows.map (fun r => r.exp_id)).contains x)).map
      (fun x => ExpRow.mk x [])
    · exact absurd (hx ▸ hskelmem) (List.not_mem_nil _)
    · rfl
  simp only [aggregate_to_experiment_level, h1, hdfp, h2, h3, h4, Bool.false_eq_true,
    if_false] at hres
  have hresX : res = roundCols (indicatorCols d)
      (d.indicators.foldl (aggStep d.tables)
        ((d.doe.filter (fun x => (dfp.rows.map (fun r => r.exp_id)).contains x)).map
          (fun x => ExpRow.mk x []))) := (Option.some.inj hres).symm
  constructor
  · rw [hresX]
    apply roundCols_exists
    apply foldl_aggStep_exists
    exact ⟨ExpRow.mk e [], hskelmem, rfl⟩
  · intro i hi t ht hcol hempty r hrres hre
    rw [hresX] at hrres
    obtain ⟨r0, hr0, hid, htransfer⟩ := roundCols_src _ _ r hrres
    apply htransfer
    apply foldl_zero_fill d.tables e d.indicators _ hnodup ?_ i hi t ht hcol hempty r0 hr0
      (by rw [← hid]; exact hre)
    intro rr hrr j _
    obtain ⟨x, _, hxr⟩ := List.mem_map.1 hrr
    rw [← hxr]
    simp

/-- Witness for the amended C1 at the concrete input `c1Data` and
experiment 1, which is present in the design table and in `df_process`. -/
theorem C1_amended_process_restriction_witness :
    (∃ r ∈ [ExpRow.mk 1 [("IND01", 5), ("IND02", 0)]], r.exp_id = 1) ∧
    ∀ i ∈ c1Data.indicators, ∀ t,
      lookupTable c1Data.tables i.target_dataframe = some t →
      t.cols.contains i.indicator_id = true →
      (∀ tr ∈ t.rows, tr.exp_id ≠ 1) →
      ∀ r ∈ [ExpRow.mk 1 [("IND01", 5), ("IND02", 0)]], r.exp_id = 1 →
        (i.indicator_id, (0 : ℚ)) ∈ r.cols := by
  have hres : aggregate_to_experiment_level c1Data =
      some [ExpRow.mk 1 [("IND01", 5), ("IND02", 0)]] := by
    have hstep : aggregate_to_experiment_level c1Data =
        some (roundCols ["IND01", "IND02"]
          [ExpRow.mk 1 [("IND01", 5), ("IND02", 0)]]) := rfl
    rw [hstep]
    have h5 : round2 (5 : ℚ) = 5 := by norm_num [round2, roundTo, roundHalfEven]
    simp [roundCols, h5, round2_zero]
  exact C1_amended_process_restriction c1Data
    [ExpRow.mk 1 [("IND01", 5), ("IND02", 0)]] hres (by simp [c1Data]) 1
    (by simp [c1Data]) (Table.mk ["IND01"] [SrcRow.mk 1 (fun _ => 5)]) rfl (by simp)
